import Mathlib

/-!
# react-learning: a verification development

A shallow embedding of the event handlers of the demos of this repository
(drag-and-drop list, contact form, throttle/debounce search, storage hooks,
theme switcher) and theorems about them.

Conventions of the embedding:

* a JavaScript string is the list of its UTF-16 code units (`JSString`), so that
  `.length`, `trim()` and the regular expression class `\S` mean what they mean
  in the source;
* a component is a record of its `useState`/`useRef` cells; an event handler is
  a function from the state of the render in which it was created (its closure)
  to the state of the next render: reads go to the closure, every `setX(v)` call
  overwrites the cell `X` of the pending next state, in call order;
* browser facilities that can fail (`localStorage`, `JSON`) are parameters that
  return `Except`; `try`/`catch` is `tryCatch`.
-/

namespace ReactLearning

/-! ## JavaScript values -/

/-- A JavaScript string: the list of its UTF-16 code units. -/
abbrev JSString := List Nat

/-- The code units of a string literal of the source (all literals of the
source are ASCII, where code unit and code point coincide). -/
def lit (s : String) : JSString := s.toList.map Char.toNat

/-- ECMAScript `WhiteSpace` and `LineTerminator` code units: what `trim()` strips and
what the class `\s` matches (so `\S` is its complement). -/
def isWhiteSpace (c : Nat) : Bool :=
  c == 0x09 || c == 0x0A || c == 0x0B || c == 0x0C || c == 0x0D || c == 0x20 ||
  c == 0xA0 || c == 0x1680 || (0x2000 ≤ c && c ≤ 0x200A) || c == 0x2028 ||
  c == 0x2029 || c == 0x202F || c == 0x205F || c == 0x3000 || c == 0xFEFF

/-- The method `String.prototype.trim`. -/
def trim (s : JSString) : JSString :=
  ((s.dropWhile isWhiteSpace).reverse.dropWhile isWhiteSpace).reverse

/-! ## `Array.prototype.splice` -/

/-- The call `arr.splice(start, deleteCount, ...ins)` for a non-negative integer `start`:
returns the removed elements and the array after the call. -/
def splice {α : Type} (arr : List α) (start deleteCount : Nat) (ins : List α) :
    List α × List α :=
  let actualStart := min start arr.length
  let actualDeleteCount := min deleteCount (arr.length - actualStart)
  ((arr.drop actualStart).take actualDeleteCount,
   arr.take actualStart ++ ins ++ arr.drop (actualStart + actualDeleteCount))

/-! ## drag-down-list: `DragDropList.js` -/

/-- The state cells of `DragDropList`: `items` and `draggedItem` (`null` or an index). -/
structure DragDropList (α : Type) where
  items : List α
  draggedItem : Option Nat
deriving DecidableEq, Repr

/-- The handler `handleDragStart(index)`. -/
def handleDragStart {α : Type} (s : DragDropList α) (index : Nat) : DragDropList α :=
  { s with draggedItem := some index }

/-- The handler `handleDrop()`. -/
def handleDrop {α : Type} (s : DragDropList α) : DragDropList α :=
  { s with draggedItem := none }

/-- The handler `handleDragOver(index)`. `undefined` is the value that
`updatedList.splice(draggedItem, 1)[0]` has when nothing was removed; a `null`
`draggedItem` is converted to the start index `0` by `splice`. -/
def handleDragOver {α : Type} (undefined : α) (s : DragDropList α) (index : Nat) :
    DragDropList α :=
  if s.draggedItem = some index then s
  else
    let updatedList := s.items
    let start := s.draggedItem.getD 0
    let r := splice updatedList start 1 []
    let itemToMove := r.1.headD undefined
    let updatedList := (splice r.2 index 0 [itemToMove]).2
    { items := updatedList, draggedItem := some index }

/-- The operation `moveItem(from, to)` in the words of the specification: remove the
element at `from` and reinsert it at `to`. -/
def moveItem {α : Type} (l : List α) (src dst : Nat) (h : src < l.length) : List α :=
  (l.eraseIdx src).insertIdx dst (l.get ⟨src, h⟩)

/-! ## Regular expressions of the shape used by the source -/

/-- One item of a pattern: a class matched once (`c`) or one or more times (`c+`). -/
inductive Atom where
  | one (p : Nat → Bool)
  | many1 (p : Nat → Bool)

/-- Backtracking match of a pattern at the start of the input (anchored on the left
only): `c+` first tries to take one more code unit, then to go on with the rest. -/
def matchAt : JSString → List Atom → Bool
  | _, [] => true
  | [], _ :: _ => false
  | c :: cs, Atom.one p :: rest => p c && matchAt cs rest
  | c :: cs, Atom.many1 p :: rest =>
      p c && (matchAt cs (Atom.many1 p :: rest) || matchAt cs rest)

/-- The method `RegExp.prototype.test` of a pattern without flags: is there a match
starting at some index of the input. -/
def regexTest (pat : List Atom) (s : JSString) : Bool :=
  s.tails.any (fun t => matchAt t pat)

/-- The literal `/\S+@\S+\.\S+/` of `validateForm`. -/
def emailPattern : List Atom :=
  [Atom.many1 (fun c => !isWhiteSpace c), Atom.one (fun c => c == 0x40),
   Atom.many1 (fun c => !isWhiteSpace c), Atom.one (fun c => c == 0x2E),
   Atom.many1 (fun c => !isWhiteSpace c)]

/-- The words of the specification for the email rule: the text contains one or more
non-space code units, then `@`, then one or more non-space code units, then `.`, then one
or more non-space code units. -/
def ContainsEmailMatch (s : JSString) : Prop :=
  ∃ pre a b c post : JSString,
    s = pre ++ a ++ [0x40] ++ b ++ [0x2E] ++ c ++ post ∧
    a ≠ [] ∧ b ≠ [] ∧ c ≠ [] ∧
    (∀ x ∈ a, isWhiteSpace x = false) ∧ (∀ x ∈ b, isWhiteSpace x = false) ∧
    (∀ x ∈ c, isWhiteSpace x = false)

/-! ## contact-form: `ContactForm.js` -/

/-- The three inputs of the form, by their `name` attribute. -/
inductive Field where
  | name
  | email
  | message
deriving DecidableEq, Repr

/-- The shape of both `formData` and `error`: one string per field. -/
structure FormData where
  name : JSString
  email : JSString
  message : JSString
deriving DecidableEq, Repr

/-- The object `{ name: '', email: '', message: '' }`. -/
def FormData.empty : FormData := ⟨[], [], []⟩

/-- The object spread with a computed key, `{ ...d, [name]: value }`. -/
def FormData.set (d : FormData) (target : Field) (value : JSString) : FormData :=
  match target with
  | Field.name => { d with name := value }
  | Field.email => { d with email := value }
  | Field.message => { d with message := value }

/-- The property read `d[name]`. -/
def FormData.get (d : FormData) (target : Field) : JSString :=
  match target with
  | Field.name => d.name
  | Field.email => d.email
  | Field.message => d.message

/-- The state cells of `ContactForm`. -/
structure ContactForm where
  formData : FormData
  error : FormData
  isSubmitted : Bool
deriving DecidableEq, Repr

/-- The state of the first render. -/
def ContactForm.initial : ContactForm := ⟨FormData.empty, FormData.empty, false⟩

/-- The values that `isSubmitDisabled` can take: a string or a boolean. -/
inductive JSVal where
  | str (s : JSString)
  | bool (b : Bool)
deriving DecidableEq, Repr

/-- The conversion `ToBoolean`: the empty string and `false` are falsy. -/
def JSVal.truthy : JSVal → Bool
  | JSVal.str s => !s.isEmpty
  | JSVal.bool b => b

/-- The operator `a || b`. -/
def JSVal.or (a b : JSVal) : JSVal := if a.truthy then a else b

/-- The operator `!a`. -/
def JSVal.not (a : JSVal) : JSVal := JSVal.bool (!a.truthy)

/-- The constant `isSubmitDisabled` of a render. -/
def isSubmitDisabled (s : ContactForm) : JSVal :=
  (((((JSVal.str s.error.name).or (JSVal.str s.error.email)).or
      (JSVal.str s.error.message)).or (JSVal.str s.formData.name).not).or
      (JSVal.str s.formData.email).not).or (JSVal.str s.formData.message).not

/-- The handler `handleChange(e)` with `e.target = { name, value }`. -/
def handleChange (s : ContactForm) (target : Field) (value : JSString) : ContactForm :=
  { s with formData := s.formData.set target value }

/-- The function `validateForm()`: reads `formData` of the render `s`, calls
`setError(newErrors)` on the pending state and returns `valid`. -/
def validateForm (s pending : ContactForm) : Bool × ContactForm :=
  let valid := true
  let newErrors : FormData := FormData.empty
  let (valid, newErrors) :=
    if (trim s.formData.name).length < 3 then
      (false, { newErrors with name := lit "Name field must be at least 3 characters" })
    else (valid, newErrors)
  let (valid, newErrors) :=
    if !regexTest emailPattern s.formData.email then
      (false, { newErrors with email := lit "Email is invalid" })
    else (valid, newErrors)
  let (valid, newErrors) :=
    if (trim s.formData.message).length < 10 then
      (false, { newErrors with message := lit "Message field must be at least 10 characters" })
    else (valid, newErrors)
  (valid, { pending with error := newErrors })

/-- The handler `handleSubmit(e)`. -/
def handleSubmit (s : ContactForm) : ContactForm :=
  let (isValid, pending) := validateForm s s
  if !isValid then
    { pending with isSubmitted := false }
  else
    let pending := { pending with isSubmitted := true }
    let pending := { pending with formData := FormData.empty }
    { pending with error := FormData.empty }

/-- The name rule fails: the trimmed name is shorter than 3. -/
def NameRuleFails (d : FormData) : Prop := (trim d.name).length < 3

/-- The email rule fails: the email contains no match of the pattern. -/
def EmailRuleFails (d : FormData) : Prop := ¬ ContainsEmailMatch d.email

/-- The message rule fails: the trimmed message is shorter than 10. -/
def MessageRuleFails (d : FormData) : Prop := (trim d.message).length < 10

/-- A sequence of field edits, each handled by `handleChange` in its own render. -/
def applyEdits (s : ContactForm) (edits : List (Field × JSString)) : ContactForm :=
  edits.foldl (fun st e => handleChange st e.1 e.2) s

/-! ## search-throttle-debounce: `App.js` -/

/-- A pending timeout of the browser: its id, the time at which it is due, and the
`query` that its callback `() => setDebounceQuery(query)` closes over. -/
structure Timeout where
  id : Nat
  due : Int
  query : JSString
deriving DecidableEq, Repr

/-- The two downstream setters whose invocations the demo is about. -/
inductive Call where
  | setThrottleQuery (value : JSString)
  | setDebounceQuery (value : JSString)
deriving DecidableEq, Repr

/-- The component `App` in its environment: the three state cells, the ref
`lastThrottleTime.current`, the timeouts pending in the browser, the id that the next
`setTimeout` returns, the constant `timer` that the cleanup returned by the last run of
the debounce effect closes over, and the record of the setter invocations with their
times. Times are `Date.now()` values in milliseconds. -/
structure SearchApp where
  query : JSString
  debounceQuery : JSString
  throttleQuery : JSString
  lastThrottleTime : Int
  timers : List Timeout
  nextTimerId : Nat
  timer : Option Nat
  calls : List (Int × Call)
deriving DecidableEq, Repr

/-- The call `clearTimeout(id)`. -/
def clearTimeout (s : SearchApp) (id : Nat) : SearchApp :=
  { s with timers := s.timers.filter (fun t => t.id != id) }

/-- The cleanup `() => clearTimeout(timer)` of the debounce effect, when there is one. -/
def debounceCleanup (s : SearchApp) : SearchApp :=
  match s.timer with
  | some id => clearTimeout s id
  | none => s

/-- The body of the debounce effect, run at time `now` in a render whose `query` is
`s.query`: `const timer = setTimeout(() => setDebounceQuery(query), 500)`. -/
def debounceEffect (s : SearchApp) (now : Int) : SearchApp :=
  { s with
    timers := s.timers ++ [⟨s.nextTimerId, now + 500, s.query⟩]
    nextTimerId := s.nextTimerId + 1
    timer := some s.nextTimerId }

/-- The first render at time `now`, followed by the first run of the effects. -/
def mount (now : Int) : SearchApp :=
  debounceEffect
    { query := [], debounceQuery := [], throttleQuery := [], lastThrottleTime := 0,
      timers := [], nextTimerId := 0, timer := none, calls := [] } now

/-- The function `handleThrottle()` created in the render `render`, called at time `now`
while the updates of the running handler have produced `pending`: `query` is the constant
of the render, `lastThrottleTime.current` is read and written in place. -/
def handleThrottle (render pending : SearchApp) (now : Int) : SearchApp :=
  if now - pending.lastThrottleTime ≥ 500 then
    { pending with
      throttleQuery := render.query
      calls := pending.calls ++ [(now, Call.setThrottleQuery render.query)]
      lastThrottleTime := now }
  else pending

/-- The `onChange` handler of the input, for an event with `e.target.value = value`:
`setQuery(e.target.value); handleThrottle();`. -/
def onChange (s : SearchApp) (value : JSString) (now : Int) : SearchApp :=
  let pending := { s with query := value }
  handleThrottle s pending now

/-- The render that follows a handler: the debounce effect has the dependency list
`[query]`, so when `query` differs from that of the previous render its cleanup runs and
then its body; otherwise neither runs. -/
def rerender (prev next : SearchApp) (now : Int) : SearchApp :=
  if next.query ≠ prev.query then debounceEffect (debounceCleanup next) now else next

/-- An input change at time `now`: the handler, then the render it causes. -/
def inputChange (s : SearchApp) (value : JSString) (now : Int) : SearchApp :=
  rerender s (onChange s value now) now

/-- A timeout runs at the time it is due: its callback calls `setDebounceQuery(query)`
with the `query` it closed over, and the timeout leaves the table. The render that follows
has the same `query`, so the debounce effect does not run. -/
def runTimeout (s : SearchApp) (t : Timeout) : SearchApp :=
  { s with
    debounceQuery := t.query
    timers := s.timers.filter (fun u => u.id != t.id)
    calls := s.calls ++ [(t.due, Call.setDebounceQuery t.query)] }

/-- The clock reaches `now`: the pending timeouts due by then run, earliest first. -/
def fireTimers (s : SearchApp) (now : Int) : SearchApp :=
  ((s.timers.filter (fun t => t.due ≤ now)).insertionSort (fun a b => a.due ≤ b.due)).foldl
    runTimeout s

/-- A sequence of input changes `(time, value)`: before each the clock reaches its time. -/
def runChanges (s : SearchApp) : List (Int × JSString) → SearchApp
  | [] => s
  | (t, v) :: rest => runChanges (inputChange (fireTimers s t) v t) rest

/-- The invocations of `setThrottleQuery` so far, with their times. -/
def throttleCalls (s : SearchApp) : List (Int × JSString) :=
  s.calls.filterMap (fun c =>
    match c with
    | (t, Call.setThrottleQuery v) => some (t, v)
    | _ => none)

/-- The invocations of `setDebounceQuery` so far, with their times. -/
def debounceCalls (s : SearchApp) : List (Int × JSString) :=
  s.calls.filterMap (fun c =>
    match c with
    | (t, Call.setDebounceQuery v) => some (t, v)
    | _ => none)

/-- The throttle policy in the words of the specification, over the times of the incoming
changes: keep a last-fired timestamp, apply a change when the time elapsed since then is at
least `interval`, drop it otherwise. Returns the times of the applied changes. -/
def throttleSpec (interval : Int) (last : Int) : List Int → List Int
  | [] => []
  | t :: rest =>
      if t - last ≥ interval then t :: throttleSpec interval t rest
      else throttleSpec interval last rest

/-- Every pending timeout is the one that the cleanup of the debounce effect clears. -/
def DebounceOwnsTimers (s : SearchApp) : Prop :=
  ∀ t ∈ s.timers, s.timer = some t.id

/-- Changes that follow the change `(t, v)`, each less than 500 ms after the one before
it and each to a value other than the one before it. -/
def QuickChanges : Int → JSString → List (Int × JSString) → Prop
  | _, _, [] => True
  | t, v, (t', v') :: rest => t < t' ∧ t' - t < 500 ∧ v' ≠ v ∧ QuickChanges t' v' rest

/-- The last change of the sequence `(t, v) :: rest`. -/
def lastChange : Int → JSString → List (Int × JSString) → Int × JSString
  | t, v, [] => (t, v)
  | _, _, (t', v') :: rest => lastChange t' v' rest

/-- The only pending timeout is the one armed by the debounce effect for the change to
`v` at time `t`, and the cleanup of that run of the effect is the current one. -/
def Armed (s : SearchApp) (t : Int) (v : JSString) : Prop :=
  ∃ id, s.timers = [⟨id, t + 500, v⟩] ∧ s.timer = some id ∧ s.query = v

/-! ## Browser storage and `JSON`, as seen by the hooks -/

/-- A Web Storage object (`window.localStorage`, `window.sessionStorage`) over browser
states `σ`: a call throws (`Except.error`) or returns; `getItem` returns `null` (`none`)
for a key that is absent. -/
structure StorageAPI (σ ε : Type) where
  getItem : σ → JSString → Except ε (Option JSString)
  setItem : σ → JSString → JSString → Except ε σ

/-- The object `JSON` on values of type `V`: `parse` and `stringify` throw or return. -/
structure JSONAPI (V ε : Type) where
  parse : JSString → Except ε V
  stringify : V → Except ε JSString

/-- The two storage objects of `window`. -/
structure Window (σ ε : Type) where
  localStorage : StorageAPI σ ε
  sessionStorage : StorageAPI σ ε

/-- A storage that works, for the examples: a list of key/value pairs. -/
def memStorage : StorageAPI (List (JSString × JSString)) String where
  getItem := fun b key => Except.ok (b.lookup key)
  setItem := fun b key value => Except.ok ((key, value) :: b.filter (fun kv => kv.1 != key))

/-- A storage that is unavailable, for the examples: every call throws. -/
def brokenStorage : StorageAPI (List (JSString × JSString)) String where
  getItem := fun _ _ => Except.error "SecurityError"
  setItem := fun _ _ _ => Except.error "QuotaExceededError"

/-- A storage whose quota is used up, for the examples: reads work, every `setItem`
throws. -/
def fullStorage : StorageAPI (List (JSString × JSString)) String where
  getItem := fun b key => Except.ok (b.lookup key)
  setItem := fun _ _ _ => Except.error "QuotaExceededError"

/-- A stand-in for `JSON` on strings, for the examples: a text is parsed when it is
enclosed in double quotes, and `stringify` encloses in double quotes. -/
def quoteJSON : JSONAPI JSString String where
  parse := fun text =>
    match text with
    | 0x22 :: rest =>
        if rest.getLast? = some 0x22 then Except.ok rest.dropLast
        else Except.error "SyntaxError"
    | _ => Except.error "SyntaxError"
  stringify := fun v => Except.ok ([0x22] ++ v ++ [0x22])

/-! ## custom-hook: `UseLocalStorage.js`, `UseSessionStorage.js` -/

/-- What a storage hook holds: the cell `storedValue`, and the browser state that its
effect writes to. -/
structure StorageHook (σ V : Type) where
  storedValue : V
  storage : σ

/-- The hook `UseLocalStorage(key, initialValue)` at creation: the initializer of
`useState`, run once in the browser state `b`. The result is `Except.error` when the
initializer lets an exception escape. -/
def UseLocalStorage {σ ε V : Type} (window : Window σ ε) (json : JSONAPI V ε) (b : σ)
    (key : JSString) (initialValue : V) : Except ε (StorageHook σ V) :=
  tryCatch
    (do
      let item ← window.localStorage.getItem b key
      match item with
      | some text =>
          if text ≠ [] then (json.parse text).map (fun v => ⟨v, b⟩)
          else pure ⟨initialValue, b⟩
      | none => pure ⟨initialValue, b⟩)
    (fun _error => pure ⟨initialValue, b⟩)

/-- The persistence effect of `UseLocalStorage`, run for the dependencies
`[key, storedValue]`. -/
def UseLocalStorage.effect {σ ε V : Type} (window : Window σ ε) (json : JSONAPI V ε)
    (key : JSString) (h : StorageHook σ V) : Except ε (StorageHook σ V) :=
  tryCatch
    (do
      let text ← json.stringify h.storedValue
      let b ← window.localStorage.setItem h.storage key text
      pure { h with storage := b })
    (fun _error => pure h)

/-- The hook `UseSessionStorage(key, initialValue)` at creation. -/
def UseSessionStorage {σ ε V : Type} (window : Window σ ε) (json : JSONAPI V ε) (b : σ)
    (key : JSString) (initialValue : V) : Except ε (StorageHook σ V) :=
  tryCatch
    (do
      let item ← window.sessionStorage.getItem b key
      match item with
      | some text =>
          if text ≠ [] then (json.parse text).map (fun v => ⟨v, b⟩)
          else pure ⟨initialValue, b⟩
      | none => pure ⟨initialValue, b⟩)
    (fun _e => pure ⟨initialValue, b⟩)

/-- The persistence effect of `UseSessionStorage`. -/
def UseSessionStorage.effect {σ ε V : Type} (window : Window σ ε) (json : JSONAPI V ε)
    (key : JSString) (h : StorageHook σ V) : Except ε (StorageHook σ V) :=
  tryCatch
    (do
      let text ← json.stringify h.storedValue
      let b ← window.sessionStorage.setItem h.storage key text
      pure { h with storage := b })
    (fun _e => pure h)

/-! ## theme-switcher: `ThemeContext.js` -/

/-- The provider `ThemeProvider`: the cell `theme`, and the browser state that
`toggleTheme` writes to. -/
structure ThemeProvider (σ : Type) where
  theme : JSString
  storage : σ

/-- The initializer of `theme`: `localStorage.getItem('theme') || 'light'`. -/
def ThemeProvider.initial {σ ε : Type} (window : Window σ ε) (b : σ) :
    Except ε (ThemeProvider σ) := do
  let item ← window.localStorage.getItem b (lit "theme")
  match item with
  | some text => if text ≠ [] then pure ⟨text, b⟩ else pure ⟨lit "light", b⟩
  | none => pure ⟨lit "light", b⟩

/-- The handler `toggleTheme()` of a render: the state of the next render, and whether
the handler returned or let the exception of `setItem` escape (after `setTheme`). -/
def toggleTheme {σ ε : Type} (window : Window σ ε) (s : ThemeProvider σ) :
    ThemeProvider σ × Except ε Unit :=
  let newTheme := if s.theme = lit "light" then lit "dark" else lit "light"
  let pending := { s with theme := newTheme }
  match window.localStorage.setItem s.storage (lit "theme") newTheme with
  | Except.ok b => ({ pending with storage := b }, Except.ok ())
  | Except.error e => (pending, Except.error e)

/-! ## Theorems -/

/-! ### `splice` -/

/-- Removing one element at a valid index: `splice(i, 1)` returns that element
and leaves the array without it. -/
theorem splice_one_nil {α : Type} (l : List α) (i : Nat) (h : i < l.length) :
    splice l i 1 [] = ([l.get ⟨i, h⟩], l.eraseIdx i) := by
  have h1 : min i l.length = i := by omega
  have h2 : min 1 (l.length - i) = 1 := by omega
  have h3 : (l.drop i).take 1 = [l.get ⟨i, h⟩] := by
    rw [List.drop_eq_getElem_cons h]
    rfl
  simp only [splice, h1, h2, h3, List.append_nil, List.eraseIdx_eq_take_drop_succ]

/-- The list `take n l ++ x :: drop n l` is `insertIdx n x l` when `n ≤ l.length`. -/
theorem take_cons_drop_eq_insertIdx {α : Type} (x : α) :
    ∀ (n : Nat) (l : List α), n ≤ l.length → l.take n ++ x :: l.drop n = l.insertIdx n x
  | 0, l, _ => by simp
  | n + 1, [], h => by simp at h
  | n + 1, a :: l, h => by
    have ih := take_cons_drop_eq_insertIdx x n l (by simpa using h)
    simp [List.insertIdx_succ_cons, ih]

/-- Inserting one element at an index inside the array: `splice(i, 0, x)`. -/
theorem splice_zero_singleton {α : Type} (l : List α) (i : Nat) (x : α)
    (h : i ≤ l.length) : (splice l i 0 [x]).2 = l.insertIdx i x := by
  have h1 : min i l.length = i := by omega
  simp only [splice, h1, Nat.zero_min, Nat.add_zero, List.append_assoc, List.singleton_append]
  exact take_cons_drop_eq_insertIdx x i l h

/-- Reinserting the erased element at the same index gives the list back. -/
theorem insertIdx_eraseIdx_self {α : Type} :
    ∀ (l : List α) (i : Nat) (h : i < l.length),
      (l.eraseIdx i).insertIdx i (l.get ⟨i, h⟩) = l
  | a :: l, 0, _ => by simp
  | a :: l, i + 1, h => by
    have ih := insertIdx_eraseIdx_self l i (by simpa using h)
    simpa [List.insertIdx_succ_cons] using ih

/-! ### C1: list reorder -/

/-- C1. For every list `L` and valid indices `src`, `dst`, with `draggedItem = src`,
`handleDragOver(dst)` leaves `items` equal to `L` with the element at `src` removed and
reinserted at `dst`: same length, a permutation of `L`, the moved element at index `dst`,
the other elements in their old relative order, and `L` itself when `src = dst`. -/
theorem handleDragOver_moveItem {α : Type} (undefined : α) (L : List α) (src dst : Nat)
    (hs : src < L.length) (hd : dst < L.length) :
    (handleDragOver undefined ⟨L, some src⟩ dst).items = moveItem L src dst hs ∧
    (handleDragOver undefined ⟨L, some src⟩ dst).items.length = L.length ∧
    (handleDragOver undefined ⟨L, some src⟩ dst).items.Perm L ∧
    (handleDragOver undefined ⟨L, some src⟩ dst).items[dst]? = some (L.get ⟨src, hs⟩) ∧
    (handleDragOver undefined ⟨L, some src⟩ dst).items.eraseIdx dst = L.eraseIdx src ∧
    (src = dst → (handleDragOver undefined ⟨L, some src⟩ dst).items = L) := by
  have hlen : (L.eraseIdx src).length = L.length - 1 := List.length_eraseIdx_of_lt hs
  have hle : dst ≤ (L.eraseIdx src).length := by omega
  have hitems : (handleDragOver undefined ⟨L, some src⟩ dst).items = moveItem L src dst hs := by
    by_cases heq : src = dst
    · subst heq
      simp only [handleDragOver, if_true, moveItem]
      exact (insertIdx_eraseIdx_self L src hs).symm
    · have hne : ¬ (some src = some dst) := by simpa using heq
      simp only [handleDragOver, hne, if_false, Option.getD_some, splice_one_nil L src hs,
        List.headD_cons, splice_zero_singleton _ dst _ hle, moveItem]
  have hperm : (moveItem L src dst hs).Perm L := by
    unfold moveItem
    refine (List.perm_insertIdx _ _ hle).trans ?_
    have h := List.perm_insertIdx (L.get ⟨src, hs⟩) (L.eraseIdx src)
      (show src ≤ (L.eraseIdx src).length by omega)
    rw [insertIdx_eraseIdx_self] at h
    exact h.symm
  rw [hitems]
  refine ⟨rfl, hperm.length_eq, hperm, ?_, ?_, ?_⟩
  · unfold moveItem
    have hlt : dst < ((L.eraseIdx src).insertIdx dst (L.get ⟨src, hs⟩)).length := by
      rw [List.length_insertIdx _ _ hle]; omega
    rw [List.getElem?_eq_getElem hlt, List.getElem_insertIdx_self _ _ _ hle]
  · unfold moveItem
    exact List.eraseIdx_insertIdx _ _
  · intro heq
    subst heq
    exact insertIdx_eraseIdx_self L src hs

/-- C1, the witness of the claim: `[A,B,C,D]`, from 0 to 2, gives `[B,C,A,D]`. -/
theorem handleDragOver_moveItem_witness :
    (0 < [65, 66, 67, 68].length ∧ 2 < [65, 66, 67, 68].length) ∧
    (handleDragOver 0 ⟨[65, 66, 67, 68], some 0⟩ 2).items = [66, 67, 65, 68] ∧
    (handleDragOver 0 ⟨[65, 66, 67, 68], some 0⟩ 2).items
      = moveItem [65, 66, 67, 68] 0 2 (by decide) :=
  ⟨by decide, by decide,
   (handleDragOver_moveItem 0 [65, 66, 67, 68] 0 2 (by decide) (by decide)).1⟩

/-! ### The regular expression of the email rule -/

/-- The empty pattern matches at once. -/
theorem matchAt_nil (s : JSString) : matchAt s [] = true := by
  cases s <;> rfl

/-- A class matched once consumes exactly one code unit of the class. -/
theorem matchAt_one (p : Nat → Bool) (rest : List Atom) (s : JSString) :
    matchAt s (Atom.one p :: rest) = true ↔
      ∃ c v, s = c :: v ∧ p c = true ∧ matchAt v rest = true := by
  cases s with
  | nil => simp [matchAt]
  | cons c cs =>
    simp only [matchAt, Bool.and_eq_true, List.cons.injEq]
    constructor
    · rintro ⟨hc, hm⟩
      exact ⟨c, cs, ⟨rfl, rfl⟩, hc, hm⟩
    · rintro ⟨x, v, ⟨rfl, rfl⟩, hc, hm⟩
      exact ⟨hc, hm⟩

/-- A class matched one or more times consumes a non-empty run of the class. -/
theorem matchAt_many1 (p : Nat → Bool) (rest : List Atom) :
    ∀ s : JSString, matchAt s (Atom.many1 p :: rest) = true ↔
      ∃ u v, s = u ++ v ∧ u ≠ [] ∧ (∀ x ∈ u, p x = true) ∧ matchAt v rest = true
  | [] => by
    simp [matchAt]
  | c :: cs => by
    have ih := matchAt_many1 p rest cs
    constructor
    · intro h
      simp only [matchAt, Bool.and_eq_true, Bool.or_eq_true] at h
      obtain ⟨hc, h | h⟩ := h
      · obtain ⟨u, v, rfl, _, hu, hv⟩ := ih.mp h
        refine ⟨c :: u, v, rfl, by simp, ?_, hv⟩
        intro x hx
        rcases List.mem_cons.mp hx with rfl | hx
        · exact hc
        · exact hu x hx
      · exact ⟨[c], cs, rfl, by simp, by simpa using hc, h⟩
    · rintro ⟨u, v, huv, hne, hu, hv⟩
      cases u with
      | nil => exact absurd rfl hne
      | cons x u =>
        simp only [List.cons_append, List.cons.injEq] at huv
        obtain ⟨rfl, rfl⟩ := huv
        simp only [matchAt, Bool.and_eq_true, Bool.or_eq_true]
        refine ⟨hu c (List.mem_cons_self _ _), ?_⟩
        by_cases hnil : u = []
        · subst hnil
          exact Or.inr (by simpa using hv)
        · exact Or.inl (ih.mpr ⟨u, v, rfl, hnil, fun y hy => hu y (List.mem_cons_of_mem _ hy), hv⟩)

/-- The method `test` looks for a match at every suffix of the input. -/
theorem regexTest_iff (pat : List Atom) (s : JSString) :
    regexTest pat s = true ↔ ∃ pre t, s = pre ++ t ∧ matchAt t pat = true := by
  simp only [regexTest, List.any_eq_true, List.mem_tails]
  constructor
  · rintro ⟨t, ht, hm⟩
    obtain ⟨pre, rfl⟩ := ht
    exact ⟨pre, t, rfl, hm⟩
  · rintro ⟨pre, t, rfl, hm⟩
    exact ⟨t, List.suffix_append _ _, hm⟩

/-- The literal of `validateForm` tests exactly the rule of the specification. -/
theorem regexTest_emailPattern (s : JSString) :
    regexTest emailPattern s = true ↔ ContainsEmailMatch s := by
  rw [regexTest_iff]
  unfold emailPattern ContainsEmailMatch
  constructor
  · rintro ⟨pre, t, rfl, hm⟩
    obtain ⟨a, v1, rfl, ha, hpa, hm⟩ := (matchAt_many1 _ _ _).mp hm
    obtain ⟨x, v2, rfl, hx, hm⟩ := (matchAt_one _ _ _).mp hm
    obtain ⟨b, v3, rfl, hb, hpb, hm⟩ := (matchAt_many1 _ _ _).mp hm
    obtain ⟨y, v4, rfl, hy, hm⟩ := (matchAt_one _ _ _).mp hm
    obtain ⟨c, v5, rfl, hc, hpc, -⟩ := (matchAt_many1 _ _ _).mp hm
    have hx : x = 0x40 := by simpa using hx
    have hy : y = 0x2E := by simpa using hy
    subst hx hy
    refine ⟨pre, a, b, c, v5, by simp, ha, hb, hc, ?_, ?_, ?_⟩
    · intro z hz; simpa using hpa z hz
    · intro z hz; simpa using hpb z hz
    · intro z hz; simpa using hpc z hz
  · rintro ⟨pre, a, b, c, post, rfl, ha, hb, hc, hpa, hpb, hpc⟩
    refine ⟨pre, a ++ [0x40] ++ b ++ [0x2E] ++ c ++ post, by simp, ?_⟩
    refine (matchAt_many1 _ _ _).mpr ⟨a, [0x40] ++ b ++ [0x2E] ++ c ++ post, by simp, ha, ?_, ?_⟩
    · intro z hz; simpa using hpa z hz
    refine (matchAt_one _ _ _).mpr ⟨0x40, b ++ [0x2E] ++ c ++ post, by simp, by simp, ?_⟩
    refine (matchAt_many1 _ _ _).mpr ⟨b, [0x2E] ++ c ++ post, by simp, hb, ?_, ?_⟩
    · intro z hz; simpa using hpb z hz
    refine (matchAt_one _ _ _).mpr ⟨0x2E, c ++ post, by simp, by simp, ?_⟩
    refine (matchAt_many1 _ _ _).mpr ⟨c, post, rfl, hc, ?_, matchAt_nil _⟩
    intro z hz; simpa using hpc z hz

/-! ### contact-form -/

/-- What `validateForm` computes: the conjunction of the three tests, and one message
per failed test. -/
theorem validateForm_eq (s pending : ContactForm) :
    validateForm s pending =
      (decide (3 ≤ (trim s.formData.name).length) && regexTest emailPattern s.formData.email
          && decide (10 ≤ (trim s.formData.message).length),
       { pending with error :=
          ⟨if (trim s.formData.name).length < 3
             then lit "Name field must be at least 3 characters" else [],
           if regexTest emailPattern s.formData.email = true then [] else lit "Email is invalid",
           if (trim s.formData.message).length < 10
             then lit "Message field must be at least 10 characters" else []⟩ }) := by
  unfold validateForm FormData.empty
  by_cases h1 : (trim s.formData.name).length < 3 <;>
  by_cases h2 : regexTest emailPattern s.formData.email = true <;>
  by_cases h3 : (trim s.formData.message).length < 10 <;>
  simp [h1, h2, h3]
  omega

/-- The three messages of `validateForm` are non-empty strings. -/
theorem error_messages_ne_nil :
    lit "Name field must be at least 3 characters" ≠ [] ∧ lit "Email is invalid" ≠ [] ∧
    lit "Message field must be at least 10 characters" ≠ [] := by
  refine ⟨?_, ?_, ?_⟩ <;> decide

/-- The return value of `validateForm` is `false` exactly when a rule fails. -/
theorem validateForm_false_iff (s pending : ContactForm) :
    (validateForm s pending).1 = false ↔
      NameRuleFails s.formData ∨ EmailRuleFails s.formData ∨ MessageRuleFails s.formData := by
  rw [validateForm_eq]
  unfold NameRuleFails EmailRuleFails MessageRuleFails
  rw [← regexTest_emailPattern]
  by_cases h1 : (trim s.formData.name).length < 3 <;>
  by_cases h2 : regexTest emailPattern s.formData.email = true <;>
  by_cases h3 : (trim s.formData.message).length < 10 <;>
  simp [h1, h2, h3]

/-- The state after `handleSubmit` when `validateForm` returned `false`. -/
theorem handleSubmit_of_invalid (s : ContactForm) (h : (validateForm s s).1 = false) :
    handleSubmit s = { (validateForm s s).2 with isSubmitted := false } := by
  unfold handleSubmit
  simp [h]

/-- The state after `handleSubmit` when `validateForm` returned `true`. -/
theorem handleSubmit_of_valid (s : ContactForm) (h : (validateForm s s).1 = true) :
    handleSubmit s = ⟨FormData.empty, FormData.empty, true⟩ := by
  unfold handleSubmit
  simp [h]

/-! ### C2: invalid submit -/

/-- C2. For every form data, `handleSubmit` takes the Invalid branch (`validateForm`
returns `false`) exactly when at least one rule fails; then the error object has a
non-empty message for exactly the fields whose rule failed, `isSubmitted` is `false` and
`formData` is unchanged. -/
theorem handleSubmit_invalid (s : ContactForm) :
    ((validateForm s s).1 = false ↔
      NameRuleFails s.formData ∨ EmailRuleFails s.formData ∨ MessageRuleFails s.formData) ∧
    ((handleSubmit s).isSubmitted = false ↔
      NameRuleFails s.formData ∨ EmailRuleFails s.formData ∨ MessageRuleFails s.formData) ∧
    (NameRuleFails s.formData ∨ EmailRuleFails s.formData ∨ MessageRuleFails s.formData →
      ((handleSubmit s).error.name ≠ [] ↔ NameRuleFails s.formData) ∧
      ((handleSubmit s).error.email ≠ [] ↔ EmailRuleFails s.formData) ∧
      ((handleSubmit s).error.message ≠ [] ↔ MessageRuleFails s.formData) ∧
      (handleSubmit s).isSubmitted = false ∧
      (handleSubmit s).formData = s.formData) := by
  refine ⟨validateForm_false_iff s s, ?_, fun h => ?_⟩
  · rw [← validateForm_false_iff s s]
    cases hv : (validateForm s s).1 with
    | false => simp [handleSubmit_of_invalid s hv]
    | true => simp [handleSubmit_of_valid s hv]
  have hv := (validateForm_false_iff s s).mpr h
  rw [handleSubmit_of_invalid s hv, validateForm_eq]
  obtain ⟨m1, m2, m3⟩ := error_messages_ne_nil
  unfold NameRuleFails EmailRuleFails MessageRuleFails
  rw [← regexTest_emailPattern]
  refine ⟨?_, ?_, ?_, rfl, rfl⟩
  · by_cases h1 : (trim s.formData.name).length < 3 <;> simp [h1, m1]
  · by_cases h2 : regexTest emailPattern s.formData.email = true <;> simp [h2, m2]
  · by_cases h3 : (trim s.formData.message).length < 10 <;> simp [h3, m3]

/-- C2, the witness of the claim: the name "Al" gives a populated name error and no
submission. -/
theorem handleSubmit_invalid_witness :
    ((handleSubmit ⟨⟨lit "Al", lit "a@b.com", lit "This message is long enough"⟩,
        FormData.empty, false⟩).error.name ≠ [] ↔
      NameRuleFails ⟨lit "Al", lit "a@b.com", lit "This message is long enough"⟩) ∧
    (handleSubmit ⟨⟨lit "Al", lit "a@b.com", lit "This message is long enough"⟩,
        FormData.empty, false⟩).error.name
      = lit "Name field must be at least 3 characters" ∧
    (handleSubmit ⟨⟨lit "Al", lit "a@b.com", lit "This message is long enough"⟩,
        FormData.empty, false⟩).isSubmitted = false :=
  have h := (handleSubmit_invalid ⟨⟨lit "Al", lit "a@b.com",
      lit "This message is long enough"⟩, FormData.empty, false⟩).2.2
    (Or.inl (by unfold NameRuleFails; decide))
  ⟨h.1, by decide, h.2.2.2.1⟩

/-! ### C3: valid submit -/

/-- C3. For every form data in which all three rules pass, `handleSubmit` ends in the
Submitted state: `isSubmitted` is `true`, the three fields are reset to the empty string
and the three error messages are empty. -/
theorem handleSubmit_valid (s : ContactForm)
    (hn : 3 ≤ (trim s.formData.name).length)
    (he : ContainsEmailMatch s.formData.email)
    (hm : 10 ≤ (trim s.formData.message).length) :
    (handleSubmit s).isSubmitted = true ∧
    (handleSubmit s).formData = ⟨[], [], []⟩ ∧
    (handleSubmit s).error = ⟨[], [], []⟩ := by
  have hv : (validateForm s s).1 = true := by
    rw [validateForm_eq]
    simp [hn, hm, (regexTest_emailPattern _).mpr he]
  rw [handleSubmit_of_valid s hv]
  exact ⟨rfl, rfl, rfl⟩

/-- C3, the witness of the claim: "Alice", "a@b.com", "This message is long enough". -/
theorem handleSubmit_valid_witness :
    (handleSubmit ⟨⟨lit "Alice", lit "a@b.com", lit "This message is long enough"⟩,
        ⟨lit "Name field must be at least 3 characters", [], []⟩, false⟩).isSubmitted = true ∧
    (handleSubmit ⟨⟨lit "Alice", lit "a@b.com", lit "This message is long enough"⟩,
        ⟨lit "Name field must be at least 3 characters", [], []⟩, false⟩).formData
      = ⟨[], [], []⟩ ∧
    (handleSubmit ⟨⟨lit "Alice", lit "a@b.com", lit "This message is long enough"⟩,
        ⟨lit "Name field must be at least 3 characters", [], []⟩, false⟩).error
      = ⟨[], [], []⟩ :=
  handleSubmit_valid ⟨⟨lit "Alice", lit "a@b.com", lit "This message is long enough"⟩,
      ⟨lit "Name field must be at least 3 characters", [], []⟩, false⟩
    (by decide) ((regexTest_emailPattern _).mp (by decide)) (by decide)

/-! ### C9 and C10: what `handleChange` leaves alone -/

/-- The handler `handleChange` replaces the named field of `formData` and nothing else. -/
theorem handleChange_frame (s : ContactForm) (target : Field) (value : JSString) :
    (handleChange s target value).formData.get target = value ∧
    (∀ f, f ≠ target → (handleChange s target value).formData.get f = s.formData.get f) ∧
    (handleChange s target value).error = s.error ∧
    (handleChange s target value).isSubmitted = s.isSubmitted := by
  refine ⟨?_, ?_, rfl, rfl⟩
  · cases target <;> rfl
  · intro f hf
    cases target <;> cases f <;> first | rfl | exact absurd rfl hf

/-- A sequence of edits changes neither `error` nor `isSubmitted`. -/
theorem applyEdits_frame (edits : List (Field × JSString)) :
    ∀ s : ContactForm, (applyEdits s edits).error = s.error ∧
      (applyEdits s edits).isSubmitted = s.isSubmitted := by
  induction edits with
  | nil => intro s; exact ⟨rfl, rfl⟩
  | cons e rest ih =>
    intro s
    have h := ih (handleChange s e.1 e.2)
    simpa [applyEdits, handleChange] using h

/-- A non-empty error message makes `isSubmitDisabled` truthy. -/
theorem isSubmitDisabled_of_error (s : ContactForm)
    (h : s.error.name ≠ [] ∨ s.error.email ≠ [] ∨ s.error.message ≠ []) :
    (isSubmitDisabled s).truthy = true := by
  have key : ∀ a b : JSVal, (a.or b).truthy = (a.truthy || b.truthy) := by
    intro a b
    unfold JSVal.or
    by_cases ha : a.truthy = true <;> simp [ha]
  have hstr : ∀ t : JSString, t ≠ [] → (JSVal.str t).truthy = true := by
    intro t ht
    cases t with
    | nil => exact absurd rfl ht
    | cons c cs => rfl
  unfold isSubmitDisabled
  simp only [key, Bool.or_eq_true]
  rcases h with h | h | h
  · exact Or.inl (Or.inl (Or.inl (Or.inl (Or.inl (hstr _ h)))))
  · exact Or.inl (Or.inl (Or.inl (Or.inl (Or.inr (hstr _ h)))))
  · exact Or.inl (Or.inl (Or.inl (Or.inr (hstr _ h))))

/-- C9, counterexample. After the successful submit of the claim C3, the edit of the name
field to "B" leaves `isSubmitted` at `true`: the success indicator is still shown. -/
theorem handleChange_leaves_submitted_counterexample :
    (handleSubmit ⟨⟨lit "Alice", lit "a@b.com", lit "This message is long enough"⟩,
        FormData.empty, false⟩).isSubmitted = true ∧
    (handleChange (handleSubmit ⟨⟨lit "Alice", lit "a@b.com",
        lit "This message is long enough"⟩, FormData.empty, false⟩)
      Field.name (lit "B")).isSubmitted = true := by
  decide

/-- C9, amended. For every state with `isSubmitted = true` (as reached by a successful
submit) every sequence of field changes through `handleChange` leaves `isSubmitted` at
`true` and `error` as it was: the form stays in the Submitted state, the success indicator
is still shown, and one field change replaces only the named field of `formData`. -/
theorem handleChange_keeps_isSubmitted (s : ContactForm) (edits : List (Field × JSString))
    (h : s.isSubmitted = true) :
    (applyEdits s edits).isSubmitted = true ∧
    (applyEdits s edits).error = s.error ∧
    (∀ target value, (handleChange s target value).isSubmitted = true ∧
      (handleChange s target value).formData = s.formData.set target value) := by
  refine ⟨?_, (applyEdits_frame edits s).1, fun target value => ⟨h, rfl⟩⟩
  rw [(applyEdits_frame edits s).2, h]

/-- C9, amended, at the state after the successful submit of the claim C3. -/
theorem handleChange_keeps_isSubmitted_witness :
    (applyEdits (handleSubmit ⟨⟨lit "Alice", lit "a@b.com",
        lit "This message is long enough"⟩, FormData.empty, false⟩)
      [(Field.name, lit "Bob")]).isSubmitted = true :=
  (handleChange_keeps_isSubmitted
    (handleSubmit ⟨⟨lit "Alice", lit "a@b.com", lit "This message is long enough"⟩,
      FormData.empty, false⟩)
    [(Field.name, lit "Bob")] (by decide)).1

/-- C10. The handler `handleChange` changes only the named field of `formData` and
leaves `error` unchanged; so from every state in which an error message is non-empty,
after every finite sequence of field edits the error object is the same and
`isSubmitDisabled` is truthy. -/
theorem isSubmitDisabled_after_edits (s : ContactForm) (edits : List (Field × JSString))
    (h : s.error.name ≠ [] ∨ s.error.email ≠ [] ∨ s.error.message ≠ []) :
    (∀ target value,
      (handleChange s target value).formData.get target = value ∧
      (∀ f, f ≠ target → (handleChange s target value).formData.get f = s.formData.get f) ∧
      (handleChange s target value).error = s.error) ∧
    (applyEdits s edits).error = s.error ∧
    (isSubmitDisabled (applyEdits s edits)).truthy = true := by
  refine ⟨fun target value => ?_, (applyEdits_frame edits s).1, ?_⟩
  · have hf := handleChange_frame s target value
    exact ⟨hf.1, hf.2.1, hf.2.2.1⟩
  · apply isSubmitDisabled_of_error
    rw [(applyEdits_frame edits s).1]
    exact h

/-- C10, at the state after the invalid submit of the name "Al", with edits that make
all three fields satisfy their rules: the button stays disabled. -/
theorem isSubmitDisabled_after_edits_witness :
    (isSubmitDisabled (applyEdits
      (handleSubmit ⟨⟨lit "Al", lit "a@b.com", lit "This message is long enough"⟩,
        FormData.empty, false⟩)
      [(Field.name, lit "Alice")])).truthy = true ∧
    (validateForm (applyEdits
      (handleSubmit ⟨⟨lit "Al", lit "a@b.com", lit "This message is long enough"⟩,
        FormData.empty, false⟩)
      [(Field.name, lit "Alice")]) ContactForm.initial).1 = true :=
  ⟨(isSubmitDisabled_after_edits
      (handleSubmit ⟨⟨lit "Al", lit "a@b.com", lit "This message is long enough"⟩,
        FormData.empty, false⟩)
      [(Field.name, lit "Alice")] (Or.inl (by decide))).2.2, by decide⟩

/-! ### search-throttle-debounce: frame lemmas -/

/-- Running timeouts touches neither the query nor the throttle. -/
theorem foldl_runTimeout_frame (l : List Timeout) :
    ∀ s : SearchApp,
      (l.foldl runTimeout s).query = s.query ∧
      (l.foldl runTimeout s).throttleQuery = s.throttleQuery ∧
      (l.foldl runTimeout s).lastThrottleTime = s.lastThrottleTime ∧
      (l.foldl runTimeout s).timer = s.timer ∧
      throttleCalls (l.foldl runTimeout s) = throttleCalls s := by
  induction l with
  | nil => intro s; exact ⟨rfl, rfl, rfl, rfl, rfl⟩
  | cons t rest ih =>
    intro s
    obtain ⟨h1, h2, h3, h4, h5⟩ := ih (runTimeout s t)
    rw [List.foldl_cons, h1, h2, h3, h4, h5]
    refine ⟨rfl, rfl, rfl, rfl, ?_⟩
    simp [throttleCalls, runTimeout, List.filterMap_append]

/-- The clock reaching `now` touches neither the query nor the throttle. -/
theorem fireTimers_frame (s : SearchApp) (now : Int) :
    (fireTimers s now).query = s.query ∧
    (fireTimers s now).throttleQuery = s.throttleQuery ∧
    (fireTimers s now).lastThrottleTime = s.lastThrottleTime ∧
    (fireTimers s now).timer = s.timer ∧
    throttleCalls (fireTimers s now) = throttleCalls s :=
  foldl_runTimeout_frame _ s

/-- The render after a handler only arms and disarms timeouts. -/
theorem rerender_frame (prev next : SearchApp) (now : Int) :
    (rerender prev next now).query = next.query ∧
    (rerender prev next now).debounceQuery = next.debounceQuery ∧
    (rerender prev next now).throttleQuery = next.throttleQuery ∧
    (rerender prev next now).lastThrottleTime = next.lastThrottleTime ∧
    (rerender prev next now).calls = next.calls := by
  unfold rerender
  by_cases h : next.query ≠ prev.query
  · rw [if_pos h]
    cases ht : next.timer <;> simp [debounceEffect, debounceCleanup, clearTimeout, ht]
  · rw [if_neg h]
    exact ⟨rfl, rfl, rfl, rfl, rfl⟩

/-- An input change at least 500 ms after `lastThrottleTime` is applied: one invocation
of `setThrottleQuery`, with the `query` of the render in which the handler was created. -/
theorem inputChange_applied (s : SearchApp) (value : JSString) (now : Int)
    (h : 500 ≤ now - s.lastThrottleTime) :
    throttleCalls (inputChange s value now) = throttleCalls s ++ [(now, s.query)] ∧
    (inputChange s value now).throttleQuery = s.query ∧
    (inputChange s value now).lastThrottleTime = now ∧
    (inputChange s value now).query = value := by
  obtain ⟨h1, -, h3, h4, h5⟩ := rerender_frame s (onChange s value now) now
  unfold inputChange
  rw [throttleCalls, h5, h3, h4, h1]
  have hge : now - s.lastThrottleTime ≥ 500 := h
  simp [onChange, handleThrottle, hge, throttleCalls, List.filterMap_append]

/-- An input change less than 500 ms after `lastThrottleTime` is dropped: no invocation
of `setThrottleQuery`, and neither `throttleQuery` nor `lastThrottleTime` changes. -/
theorem inputChange_dropped (s : SearchApp) (value : JSString) (now : Int)
    (h : now - s.lastThrottleTime < 500) :
    throttleCalls (inputChange s value now) = throttleCalls s ∧
    (inputChange s value now).throttleQuery = s.throttleQuery ∧
    (inputChange s value now).lastThrottleTime = s.lastThrottleTime ∧
    (inputChange s value now).query = value := by
  obtain ⟨h1, -, h3, h4, h5⟩ := rerender_frame s (onChange s value now) now
  unfold inputChange
  rw [throttleCalls, h5, h3, h4, h1]
  have hge : ¬ (now - s.lastThrottleTime ≥ 500) := by omega
  simp [onChange, handleThrottle, hge, throttleCalls]

/-- The times at which a run of input changes invokes `setThrottleQuery` are those of
the throttle policy started at `lastThrottleTime`. -/
theorem runChanges_throttle_times (cs : List (Int × JSString)) :
    ∀ s : SearchApp,
      (throttleCalls (runChanges s cs)).map Prod.fst =
        (throttleCalls s).map Prod.fst ++
          throttleSpec 500 s.lastThrottleTime (cs.map Prod.fst) := by
  induction cs with
  | nil => intro s; simp [runChanges, throttleSpec]
  | cons c rest ih =>
    intro s
    obtain ⟨t, v⟩ := c
    obtain ⟨-, -, f3, -, f5⟩ := fireTimers_frame s t
    rw [runChanges, ih]
    by_cases h : 500 ≤ t - s.lastThrottleTime
    · obtain ⟨a1, -, a3, -⟩ := inputChange_applied (fireTimers s t) v t (by rw [f3]; exact h)
      have hge : t - s.lastThrottleTime ≥ 500 := h
      rw [a1, a3, f5]
      simp [throttleSpec, hge]
    · obtain ⟨a1, -, a3, -⟩ := inputChange_dropped (fireTimers s t) v t (by rw [f3]; omega)
      have hge : ¬ (t - s.lastThrottleTime ≥ 500) := h
      rw [a1, a3, f5, f3]
      simp [throttleSpec, hge]

/-! ### C4 and C5: throttle -/

/-- C4, counterexample. The change at time 1000 is applied; the next change comes at
1500, when the time elapsed since the last applied change is 500 and so does not exceed
500, and it is applied all the same. -/
theorem throttle_applies_at_500_counterexample :
    (inputChange (mount 0) (lit "a") 1000).lastThrottleTime = 1000 ∧
    ¬ (1500 - (inputChange (mount 0) (lit "a") 1000).lastThrottleTime > 500) ∧
    throttleCalls (inputChange (inputChange (mount 0) (lit "a") 1000) (lit "ab") 1500)
      = throttleCalls (inputChange (mount 0) (lit "a") 1000) ++ [(1500, lit "a")] ∧
    (inputChange (inputChange (mount 0) (lit "a") 1000) (lit "ab") 1500).lastThrottleTime
      = 1500 := by
  decide

/-- C4, amended. An input change is applied by `handleThrottle` exactly when the time
elapsed since `lastThrottleTime` (0 at first, then the time of the last applied change) is
at least 500 ms; otherwise it is dropped and neither `throttleQuery` nor
`lastThrottleTime` changes. Over a run the applied changes are those of the throttle
policy with interval 500, and for changes at `T`, `T+100`, `T+200`, `T+600` of which the
first is applied, exactly those at `T` and `T+600` are applied. -/
theorem throttle_applies_iff_interval_elapsed (s : SearchApp) (value : JSString) (now : Int)
    (cs : List (Int × JSString)) (T : Int) (v0 v1 v2 v3 : JSString) :
    (throttleCalls (inputChange s value now) ≠ throttleCalls s ↔
      500 ≤ now - s.lastThrottleTime) ∧
    (500 ≤ now - s.lastThrottleTime →
      (throttleCalls (inputChange s value now)).map Prod.fst
        = (throttleCalls s).map Prod.fst ++ [now] ∧
      (inputChange s value now).lastThrottleTime = now) ∧
    (now - s.lastThrottleTime < 500 →
      throttleCalls (inputChange s value now) = throttleCalls s ∧
      (inputChange s value now).throttleQuery = s.throttleQuery ∧
      (inputChange s value now).lastThrottleTime = s.lastThrottleTime) ∧
    (throttleCalls (runChanges s cs)).map Prod.fst =
      (throttleCalls s).map Prod.fst ++ throttleSpec 500 s.lastThrottleTime (cs.map Prod.fst) ∧
    (500 ≤ T - s.lastThrottleTime →
      (throttleCalls (runChanges s
          [(T, v0), (T + 100, v1), (T + 200, v2), (T + 600, v3)])).map Prod.fst =
        (throttleCalls s).map Prod.fst ++ [T, T + 600]) := by
  refine ⟨?_, ?_, ?_, runChanges_throttle_times cs s, ?_⟩
  · by_cases h : 500 ≤ now - s.lastThrottleTime
    · simp [(inputChange_applied s value now h).1, h]
    · simp [(inputChange_dropped s value now (by omega)).1, h]
  · intro h
    obtain ⟨a1, -, a3, -⟩ := inputChange_applied s value now h
    exact ⟨by simp [a1], a3⟩
  · intro h
    obtain ⟨a1, a2, a3, -⟩ := inputChange_dropped s value now h
    exact ⟨a1, a2, a3⟩
  · intro h
    have hge : T - s.lastThrottleTime ≥ 500 := h
    rw [runChanges_throttle_times]
    simp [throttleSpec, hge]

/-- C4, amended, from the first render: changes at 1000, 1100, 1200 and 1600. -/
theorem throttle_applies_iff_interval_elapsed_witness :
    500 ≤ (1000 : Int) - (mount 0).lastThrottleTime ∧
    (throttleCalls (runChanges (mount 0)
        [(1000, lit "a"), (1000 + 100, lit "ab"), (1000 + 200, lit "abc"),
         (1000 + 600, lit "abcd")])).map Prod.fst =
      (throttleCalls (mount 0)).map Prod.fst ++ [1000, 1000 + 600] :=
  ⟨by decide,
   (throttle_applies_iff_interval_elapsed (mount 0) (lit "a") 1000 [] 1000
      (lit "a") (lit "ab") (lit "abc") (lit "abcd")).2.2.2.2 (by decide)⟩

/-- C5, the code at the failing input. From the first render the user types "a" at time
1000 and then "ab" at time 1600; both events pass the interval check, and
`setThrottleQuery` is called with the `query` of the render before the event: the empty
string for the first event, "a" for the second. -/
theorem throttleQuery_is_stale :
    (inputChange (mount 0) (lit "a") 1000).query = lit "a" ∧
    (inputChange (mount 0) (lit "a") 1000).throttleQuery = [] ∧
    (inputChange (inputChange (mount 0) (lit "a") 1000) (lit "ab") 1600).query = lit "ab" ∧
    (inputChange (inputChange (mount 0) (lit "a") 1000) (lit "ab") 1600).throttleQuery
      = lit "a" ∧
    throttleCalls (inputChange (inputChange (mount 0) (lit "a") 1000) (lit "ab") 1600)
      = [(1000, []), (1600, lit "a")] := by
  decide

/-! ### C6: debounce -/

/-- Running timeouts removes timeouts from the table and adds none. -/
theorem foldl_runTimeout_timers (l : List Timeout) :
    ∀ s : SearchApp, ∀ u ∈ (l.foldl runTimeout s).timers, u ∈ s.timers := by
  induction l with
  | nil => intro s u hu; exact hu
  | cons t rest ih =>
    intro s u hu
    have h := ih (runTimeout s t) u hu
    simp only [runTimeout, List.mem_filter] at h
    exact h.1

/-- The clock reaching `now` keeps the timeouts owned by the debounce effect. -/
theorem fireTimers_owns (s : SearchApp) (now : Int) (h : DebounceOwnsTimers s) :
    DebounceOwnsTimers (fireTimers s now) := by
  intro u hu
  rw [(fireTimers_frame s now).2.2.2.1]
  exact h u (foldl_runTimeout_timers _ s u hu)

/-- The handler `onChange` sets `query` and leaves the timeouts and the debounce alone. -/
theorem onChange_frame (s : SearchApp) (value : JSString) (now : Int) :
    (onChange s value now).query = value ∧
    (onChange s value now).timers = s.timers ∧
    (onChange s value now).timer = s.timer ∧
    (onChange s value now).debounceQuery = s.debounceQuery ∧
    debounceCalls (onChange s value now) = debounceCalls s := by
  unfold onChange handleThrottle
  by_cases h : now - s.lastThrottleTime ≥ 500
  · simp [h, debounceCalls, List.filterMap_append]
  · simp [h, debounceCalls]

/-- A change of `query` at time `now` cancels the pending timeouts of the debounce effect
and arms one timeout, due at `now + 500`, for the new value. -/
theorem inputChange_arms (s : SearchApp) (value : JSString) (now : Int)
    (hwf : DebounceOwnsTimers s) (hv : value ≠ s.query) :
    Armed (inputChange s value now) now value ∧
    (inputChange s value now).debounceQuery = s.debounceQuery ∧
    debounceCalls (inputChange s value now) = debounceCalls s := by
  obtain ⟨o1, o2, o3, o4, o5⟩ := onChange_frame s value now
  have hclean : (debounceCleanup (onChange s value now)).timers = [] := by
    unfold debounceCleanup
    cases ht : (onChange s value now).timer with
    | none =>
      simp only
      rw [o2]
      apply List.eq_nil_iff_forall_not_mem.mpr
      intro u hu
      have := hwf u hu
      rw [← o3, ht] at this
      exact Option.noConfusion this
    | some id =>
      simp only [clearTimeout]
      apply List.eq_nil_iff_forall_not_mem.mpr
      intro u hu
      simp only [List.mem_filter, o2] at hu
      have h1 := hwf u hu.1
      rw [← o3, ht] at h1
      have h2 : id = u.id := Option.some.inj h1
      simp [h2] at hu
  have hq : (debounceCleanup (onChange s value now)).query = value := by
    unfold debounceCleanup
    cases ht : (onChange s value now).timer <;> simp [clearTimeout, o1]
  have hd : (debounceCleanup (onChange s value now)).debounceQuery = s.debounceQuery := by
    unfold debounceCleanup
    cases ht : (onChange s value now).timer <;> simp [clearTimeout, o4]
  have hc : (debounceCleanup (onChange s value now)).calls = (onChange s value now).calls := by
    unfold debounceCleanup
    cases ht : (onChange s value now).timer <;> simp [clearTimeout]
  have hne : (onChange s value now).query ≠ s.query := by rw [o1]; exact hv
  unfold inputChange rerender
  rw [if_pos hne]
  refine ⟨⟨(debounceCleanup (onChange s value now)).nextTimerId, ?_, rfl, ?_⟩, ?_, ?_⟩
  · simp [debounceEffect, hclean, hq]
  · simp [debounceEffect, hq]
  · simp [debounceEffect, hd]
  · simp only [debounceCalls, debounceEffect, hc]
    exact o5

/-- An armed state owns its only timeout. -/
theorem Armed.owns {s : SearchApp} {t : Int} {v : JSString} (h : Armed s t v) :
    DebounceOwnsTimers s := by
  obtain ⟨id, h1, h2, -⟩ := h
  intro u hu
  rw [h1, List.mem_singleton] at hu
  rw [h2, hu]

/-- Before the armed timeout is due, the clock passing does nothing. -/
theorem fireTimers_not_due {s : SearchApp} {t : Int} {v : JSString} (h : Armed s t v)
    (now : Int) (hnow : now < t + 500) : fireTimers s now = s := by
  obtain ⟨id, h1, -, -⟩ := h
  have : ¬ (t + 500 ≤ now) := by omega
  simp [fireTimers, h1, this]

/-- When the armed timeout is due it runs: one invocation of `setDebounceQuery`, at
`t + 500`, with the value of the change that armed it, and no timeout is left. -/
theorem fireTimers_due {s : SearchApp} {t : Int} {v : JSString} (h : Armed s t v)
    (now : Int) (hnow : t + 500 ≤ now) :
    debounceCalls (fireTimers s now) = debounceCalls s ++ [(t + 500, v)] ∧
    (fireTimers s now).debounceQuery = v ∧
    (fireTimers s now).timers = [] := by
  obtain ⟨id, h1, -, -⟩ := h
  simp [fireTimers, h1, hnow, runTimeout, debounceCalls, List.filterMap_append]

/-- From an armed state, quick changes leave one pending timeout, that of the last change,
and once it is due `setDebounceQuery` has been invoked exactly once more. -/
theorem runChanges_armed (rest : List (Int × JSString)) :
    ∀ (s : SearchApp) (t : Int) (v : JSString), Armed s t v → QuickChanges t v rest →
      Armed (runChanges s rest) (lastChange t v rest).1 (lastChange t v rest).2 ∧
      debounceCalls (runChanges s rest) = debounceCalls s := by
  induction rest with
  | nil => intro s t v ha _; exact ⟨ha, rfl⟩
  | cons c rest ih =>
    intro s t v ha hq
    obtain ⟨t', v'⟩ := c
    obtain ⟨h1, h2, h3, h4⟩ := hq
    have hfire : fireTimers s t' = s := fireTimers_not_due ha t' (by omega)
    have hquery : s.query = v := by
      obtain ⟨id, -, -, hq⟩ := ha
      exact hq
    obtain ⟨a1, -, a3⟩ := inputChange_arms s v' t' ha.owns (by rw [hquery]; exact h3)
    obtain ⟨i1, i2⟩ := ih (inputChange s v' t') t' v' a1 h4
    simp only [runChanges, lastChange, hfire]
    exact ⟨i1, i2.trans a3⟩

/-- C6. For changes of `query` at times `t1 < t2 < ... < tn`, each less than 500 ms after
the one before it, and the clock then reaching `tEnd ≥ tn + 500` with no further change:
after the last change the only pending timeout is the one armed at `tn` (all earlier ones
were cleared by the effect cleanup), and `setDebounceQuery` is invoked for these changes
exactly once, at `tn + 500`, with the value set at `tn`. -/
theorem debounce_fires_once (s : SearchApp) (t1 : Int) (v1 : JSString)
    (rest : List (Int × JSString)) (tEnd : Int)
    (hwf : DebounceOwnsTimers s) (hv : v1 ≠ s.query)
    (hq : QuickChanges t1 v1 rest) (hend : (lastChange t1 v1 rest).1 + 500 ≤ tEnd) :
    Armed (runChanges s ((t1, v1) :: rest)) (lastChange t1 v1 rest).1 (lastChange t1 v1 rest).2 ∧
    debounceCalls (runChanges s ((t1, v1) :: rest)) = debounceCalls (fireTimers s t1) ∧
    debounceCalls (fireTimers (runChanges s ((t1, v1) :: rest)) tEnd) =
      debounceCalls (fireTimers s t1) ++
        [((lastChange t1 v1 rest).1 + 500, (lastChange t1 v1 rest).2)] ∧
    (fireTimers (runChanges s ((t1, v1) :: rest)) tEnd).debounceQuery
      = (lastChange t1 v1 rest).2 ∧
    (fireTimers (runChanges s ((t1, v1) :: rest)) tEnd).timers = [] := by
  have hwf1 := fireTimers_owns s t1 hwf
  have hv1 : v1 ≠ (fireTimers s t1).query := by rw [(fireTimers_frame s t1).1]; exact hv
  obtain ⟨a1, -, a3⟩ := inputChange_arms (fireTimers s t1) v1 t1 hwf1 hv1
  obtain ⟨r1, r2⟩ := runChanges_armed rest _ t1 v1 a1 hq
  obtain ⟨d1, d2, d3⟩ := fireTimers_due r1 tEnd hend
  simp only [runChanges]
  refine ⟨r1, r2.trans a3, ?_, d2, d3⟩
  rw [d1, r2, a3]

/-- C6, the witness of the claim: the component is first rendered at time -1000 and
`query` changes at 0, 100 and 200 ms; the one invocation is at 700 ms with the value of
the change at 200 ms. -/
theorem debounce_fires_once_witness :
    debounceCalls (fireTimers (mount (-1000)) 0) = [(-500, [])] ∧
    debounceCalls (fireTimers (runChanges (mount (-1000))
        [(0, lit "a"), (100, lit "ab"), (200, lit "abc")]) 700) =
      debounceCalls (fireTimers (mount (-1000)) 0) ++ [(200 + 500, lit "abc")] :=
  ⟨by decide,
   (debounce_fires_once (mount (-1000)) 0 (lit "a") [(100, lit "ab"), (200, lit "abc")] 700
      (by unfold DebounceOwnsTimers; decide) (by decide)
      (by simp only [QuickChanges]; decide) (by decide)).2.2.1⟩

/-! ### C7: storage hooks -/

/-- The initializer of `UseLocalStorage` by cases on what the storage and `JSON` do. -/
theorem UseLocalStorage_eq {σ ε V : Type} (window : Window σ ε) (json : JSONAPI V ε) (b : σ)
    (key : JSString) (initialValue : V) :
    UseLocalStorage window json b key initialValue =
      match window.localStorage.getItem b key with
      | Except.error _ => Except.ok ⟨initialValue, b⟩
      | Except.ok none => Except.ok ⟨initialValue, b⟩
      | Except.ok (some text) =>
          if text = [] then Except.ok ⟨initialValue, b⟩
          else match json.parse text with
            | Except.error _ => Except.ok ⟨initialValue, b⟩
            | Except.ok v => Except.ok ⟨v, b⟩ := by
  unfold UseLocalStorage
  cases hg : window.localStorage.getItem b key with
  | error e => rfl
  | ok item =>
    cases item with
    | none => rfl
    | some text =>
      by_cases ht : text = []
      · subst ht; rfl
      · cases hp : json.parse text with
        | error e =>
          simp [tryCatch, tryCatchThe, MonadExceptOf.tryCatch, Except.tryCatch, bind,
            Except.bind, ht, hp, Except.map, pure, Except.pure]
        | ok v =>
          simp [tryCatch, tryCatchThe, MonadExceptOf.tryCatch, Except.tryCatch, bind,
            Except.bind, ht, hp, Except.map]

/-- The initializer of `UseSessionStorage` by cases on what the storage and `JSON` do. -/
theorem UseSessionStorage_eq {σ ε V : Type} (window : Window σ ε) (json : JSONAPI V ε)
    (b : σ) (key : JSString) (initialValue : V) :
    UseSessionStorage window json b key initialValue =
      match window.sessionStorage.getItem b key with
      | Except.error _ => Except.ok ⟨initialValue, b⟩
      | Except.ok none => Except.ok ⟨initialValue, b⟩
      | Except.ok (some text) =>
          if text = [] then Except.ok ⟨initialValue, b⟩
          else match json.parse text with
            | Except.error _ => Except.ok ⟨initialValue, b⟩
            | Except.ok v => Except.ok ⟨v, b⟩ := by
  unfold UseSessionStorage
  cases hg : window.sessionStorage.getItem b key with
  | error e => rfl
  | ok item =>
    cases item with
    | none => rfl
    | some text =>
      by_cases ht : text = []
      · subst ht; rfl
      · cases hp : json.parse text with
        | error e =>
          simp [tryCatch, tryCatchThe, MonadExceptOf.tryCatch, Except.tryCatch, bind,
            Except.bind, ht, hp, Except.map, pure, Except.pure]
        | ok v =>
          simp [tryCatch, tryCatchThe, MonadExceptOf.tryCatch, Except.tryCatch, bind,
            Except.bind, ht, hp, Except.map]

/-- The effect of `UseLocalStorage` by cases on what `JSON` and the storage do. -/
theorem UseLocalStorage_effect_eq {σ ε V : Type} (window : Window σ ε) (json : JSONAPI V ε)
    (key : JSString) (h : StorageHook σ V) :
    UseLocalStorage.effect window json key h =
      match json.stringify h.storedValue with
      | Except.error _ => Except.ok h
      | Except.ok text =>
          match window.localStorage.setItem h.storage key text with
          | Except.error _ => Except.ok h
          | Except.ok b => Except.ok { h with storage := b } := by
  unfold UseLocalStorage.effect
  cases hs : json.stringify h.storedValue with
  | error e => rfl
  | ok text =>
    cases hw : window.localStorage.setItem h.storage key text with
    | error e =>
      simp [tryCatch, tryCatchThe, MonadExceptOf.tryCatch, Except.tryCatch, bind,
        Except.bind, hw, pure, Except.pure]
    | ok b =>
      simp [tryCatch, tryCatchThe, MonadExceptOf.tryCatch, Except.tryCatch, bind,
        Except.bind, hw, pure, Except.pure]

/-- The effect of `UseSessionStorage` by cases on what `JSON` and the storage do. -/
theorem UseSessionStorage_effect_eq {σ ε V : Type} (window : Window σ ε)
    (json : JSONAPI V ε) (key : JSString) (h : StorageHook σ V) :
    UseSessionStorage.effect window json key h =
      match json.stringify h.storedValue with
      | Except.error _ => Except.ok h
      | Except.ok text =>
          match window.sessionStorage.setItem h.storage key text with
          | Except.error _ => Except.ok h
          | Except.ok b => Except.ok { h with storage := b } := by
  unfold UseSessionStorage.effect
  cases hs : json.stringify h.storedValue with
  | error e => rfl
  | ok text =>
    cases hw : window.sessionStorage.setItem h.storage key text with
    | error e =>
      simp [tryCatch, tryCatchThe, MonadExceptOf.tryCatch, Except.tryCatch, bind,
        Except.bind, hw, pure, Except.pure]
    | ok b =>
      simp [tryCatch, tryCatchThe, MonadExceptOf.tryCatch, Except.tryCatch, bind,
        Except.bind, hw, pure, Except.pure]

/-- C7. The storage hooks are best-effort. At creation `UseLocalStorage` and
`UseSessionStorage` never let a failure escape, and `storedValue` is `initialValue` when
`getItem` throws, when the stored text cannot be parsed, and when the item is absent. The
persistence effect never lets a failure escape and never changes `storedValue`; when
serialisation or `setItem` throws it changes nothing at all. -/
theorem storage_hooks_best_effort {σ ε V : Type} (window : Window σ ε) (json : JSONAPI V ε)
    (b : σ) (key : JSString) (initialValue : V) (h : StorageHook σ V) :
    ((∃ v, UseLocalStorage window json b key initialValue = Except.ok ⟨v, b⟩) ∧
     (∀ e, window.localStorage.getItem b key = Except.error e →
        UseLocalStorage window json b key initialValue = Except.ok ⟨initialValue, b⟩) ∧
     (∀ text e, window.localStorage.getItem b key = Except.ok (some text) →
        json.parse text = Except.error e →
        UseLocalStorage window json b key initialValue = Except.ok ⟨initialValue, b⟩) ∧
     (window.localStorage.getItem b key = Except.ok none →
        UseLocalStorage window json b key initialValue = Except.ok ⟨initialValue, b⟩) ∧
     (∃ b', UseLocalStorage.effect window json key h = Except.ok ⟨h.storedValue, b'⟩) ∧
     (∀ e, json.stringify h.storedValue = Except.error e →
        UseLocalStorage.effect window json key h = Except.ok h) ∧
     (∀ text e, json.stringify h.storedValue = Except.ok text →
        window.localStorage.setItem h.storage key text = Except.error e →
        UseLocalStorage.effect window json key h = Except.ok h)) ∧
    ((∃ v, UseSessionStorage window json b key initialValue = Except.ok ⟨v, b⟩) ∧
     (∀ e, window.sessionStorage.getItem b key = Except.error e →
        UseSessionStorage window json b key initialValue = Except.ok ⟨initialValue, b⟩) ∧
     (∀ text e, window.sessionStorage.getItem b key = Except.ok (some text) →
        json.parse text = Except.error e →
        UseSessionStorage window json b key initialValue = Except.ok ⟨initialValue, b⟩) ∧
     (window.sessionStorage.getItem b key = Except.ok none →
        UseSessionStorage window json b key initialValue = Except.ok ⟨initialValue, b⟩) ∧
     (∃ b', UseSessionStorage.effect window json key h = Except.ok ⟨h.storedValue, b'⟩) ∧
     (∀ e, json.stringify h.storedValue = Except.error e →
        UseSessionStorage.effect window json key h = Except.ok h) ∧
     (∀ text e, json.stringify h.storedValue = Except.ok text →
        window.sessionStorage.setItem h.storage key text = Except.error e →
        UseSessionStorage.effect window json key h = Except.ok h)) := by
  refine ⟨⟨?_, ?_, ?_, ?_, ?_, ?_, ?_⟩, ⟨?_, ?_, ?_, ?_, ?_, ?_, ?_⟩⟩
  · rw [UseLocalStorage_eq]
    cases hg : window.localStorage.getItem b key with
    | error e => exact ⟨initialValue, rfl⟩
    | ok item =>
      cases item with
      | none => exact ⟨initialValue, rfl⟩
      | some text =>
        by_cases ht : text = []
        · exact ⟨initialValue, by simp [ht]⟩
        · cases hp : json.parse text with
          | error e => exact ⟨initialValue, by simp [ht, hp]⟩
          | ok v => exact ⟨v, by simp [ht, hp]⟩
  · intro e hg
    rw [UseLocalStorage_eq, hg]
  · intro text e hg hp
    rw [UseLocalStorage_eq, hg]
    by_cases ht : text = [] <;> simp [ht, hp]
  · intro hg
    rw [UseLocalStorage_eq, hg]
  · rw [UseLocalStorage_effect_eq]
    cases hs : json.stringify h.storedValue with
    | error e => exact ⟨h.storage, rfl⟩
    | ok text =>
      cases hw : window.localStorage.setItem h.storage key text with
      | error e => exact ⟨h.storage, by simp [hw]⟩
      | ok b' => exact ⟨b', by simp [hw]⟩
  · intro e hs
    rw [UseLocalStorage_effect_eq, hs]
  · intro text e hs hw
    rw [UseLocalStorage_effect_eq, hs]
    simp only [hw]
  · rw [UseSessionStorage_eq]
    cases hg : window.sessionStorage.getItem b key with
    | error e => exact ⟨initialValue, rfl⟩
    | ok item =>
      cases item with
      | none => exact ⟨initialValue, rfl⟩
      | some text =>
        by_cases ht : text = []
        · exact ⟨initialValue, by simp [ht]⟩
        · cases hp : json.parse text with
          | error e => exact ⟨initialValue, by simp [ht, hp]⟩
          | ok v => exact ⟨v, by simp [ht, hp]⟩
  · intro e hg
    rw [UseSessionStorage_eq, hg]
  · intro text e hg hp
    rw [UseSessionStorage_eq, hg]
    by_cases ht : text = [] <;> simp [ht, hp]
  · intro hg
    rw [UseSessionStorage_eq, hg]
  · rw [UseSessionStorage_effect_eq]
    cases hs : json.stringify h.storedValue with
    | error e => exact ⟨h.storage, rfl⟩
    | ok text =>
      cases hw : window.sessionStorage.setItem h.storage key text with
      | error e => exact ⟨h.storage, by simp [hw]⟩
      | ok b' => exact ⟨b', by simp [hw]⟩
  · intro e hs
    rw [UseSessionStorage_effect_eq, hs]
  · intro text e hs hw
    rw [UseSessionStorage_effect_eq, hs]
    simp only [hw]

/-- C7, with a local storage that throws on every call and a session storage that holds
a text that is not JSON: `StartComponent` gets "Deepika" from both hooks, and the failed
write leaves the hook as it was. -/
theorem storage_hooks_best_effort_witness :
    UseLocalStorage ⟨brokenStorage, memStorage⟩ quoteJSON [(lit "name", lit "oops")]
        (lit "name") (lit "Deepika")
      = Except.ok ⟨lit "Deepika", [(lit "name", lit "oops")]⟩ ∧
    UseSessionStorage ⟨brokenStorage, memStorage⟩ quoteJSON [(lit "name", lit "oops")]
        (lit "name") (lit "Deepika")
      = Except.ok ⟨lit "Deepika", [(lit "name", lit "oops")]⟩ ∧
    UseLocalStorage.effect ⟨brokenStorage, memStorage⟩ quoteJSON (lit "name")
        ⟨lit "Deepika", [(lit "name", lit "oops")]⟩
      = Except.ok ⟨lit "Deepika", [(lit "name", lit "oops")]⟩ :=
  have h := storage_hooks_best_effort ⟨brokenStorage, memStorage⟩ quoteJSON
    [(lit "name", lit "oops")] (lit "name") (lit "Deepika")
    ⟨lit "Deepika", [(lit "name", lit "oops")]⟩
  ⟨h.1.2.1 "SecurityError" rfl,
   h.2.2.2.1 (lit "oops") "SyntaxError" rfl rfl,
   h.1.2.2.2.2.2.2 _ "QuotaExceededError" rfl rfl⟩

/-! ### C8: theme toggle -/

/-- The handler `toggleTheme` by cases on what `setItem` does. -/
theorem toggleTheme_eq {σ ε : Type} (window : Window σ ε) (s : ThemeProvider σ) :
    toggleTheme window s =
      match window.localStorage.setItem s.storage (lit "theme")
          (if s.theme = lit "light" then lit "dark" else lit "light") with
      | Except.ok b =>
          (⟨if s.theme = lit "light" then lit "dark" else lit "light", b⟩, Except.ok ())
      | Except.error e =>
          (⟨if s.theme = lit "light" then lit "dark" else lit "light", s.storage⟩,
            Except.error e) := by
  rfl

/-- The new theme is computed from the current one alone. -/
theorem toggleTheme_theme {σ ε : Type} (window : Window σ ε) (s : ThemeProvider σ) :
    (toggleTheme window s).1.theme =
      (if s.theme = lit "light" then lit "dark" else lit "light") := by
  rw [toggleTheme_eq]
  cases window.localStorage.setItem s.storage (lit "theme")
      (if s.theme = lit "light" then lit "dark" else lit "light") <;> rfl

/-- C8, counterexample. On a storage whose quota is used up, with the theme "dark" in
memory and persisted, `toggleTheme` sets the theme to "light", the exception of `setItem`
escapes the handler, and the persisted value is still "dark": the theme and the persisted
value do not agree after the toggle. -/
theorem toggleTheme_quota_counterexample :
    (toggleTheme ⟨fullStorage, fullStorage⟩
      ⟨lit "dark", [(lit "theme", lit "dark")]⟩).1.theme = lit "light" ∧
    fullStorage.getItem (toggleTheme ⟨fullStorage, fullStorage⟩
      ⟨lit "dark", [(lit "theme", lit "dark")]⟩).1.storage (lit "theme")
      = Except.ok (some (lit "dark")) ∧
    lit "light" ≠ lit "dark" ∧
    (toggleTheme ⟨fullStorage, fullStorage⟩
      ⟨lit "dark", [(lit "theme", lit "dark")]⟩).2 = Except.error "QuotaExceededError" :=
  ⟨rfl, rfl, by decide, rfl⟩

/-- C8, amended. For a current theme in {"light", "dark"}, `toggleTheme` sets the theme
to the other value and calls `setItem` with that same value under the key "theme"; when
this write succeeds and the storage returns what was written, the handler returns and the
theme and the persisted value agree after the toggle. Two successive toggles, each in its
own render, return the theme to the starting one, and when both writes succeed and the
storage returns what was written, the persisted value as well. -/
theorem toggleTheme_persists {σ ε : Type} (window : Window σ ε) (s : ThemeProvider σ)
    (htheme : s.theme = lit "light" ∨ s.theme = lit "dark") :
    (s.theme = lit "light" → (toggleTheme window s).1.theme = lit "dark") ∧
    (s.theme = lit "dark" → (toggleTheme window s).1.theme = lit "light") ∧
    (toggleTheme window (toggleTheme window s).1).1.theme = s.theme ∧
    (∀ b', window.localStorage.setItem s.storage (lit "theme")
          (toggleTheme window s).1.theme = Except.ok b' →
        window.localStorage.getItem b' (lit "theme")
          = Except.ok (some (toggleTheme window s).1.theme) →
        (toggleTheme window s).2 = Except.ok () ∧
        (toggleTheme window s).1.storage = b' ∧
        window.localStorage.getItem (toggleTheme window s).1.storage (lit "theme")
          = Except.ok (some (toggleTheme window s).1.theme)) ∧
    (∀ b' b'', window.localStorage.setItem s.storage (lit "theme")
          (toggleTheme window s).1.theme = Except.ok b' →
        window.localStorage.setItem b' (lit "theme") s.theme = Except.ok b'' →
        window.localStorage.getItem b'' (lit "theme") = Except.ok (some s.theme) →
        (toggleTheme window (toggleTheme window s).1).2 = Except.ok () ∧
        window.localStorage.getItem (toggleTheme window (toggleTheme window s).1).1.storage
          (lit "theme") = Except.ok (some s.theme)) := by
  have hdl : lit "dark" ≠ lit "light" := by decide
  have step : ∀ (u : ThemeProvider σ) (b' : σ),
      window.localStorage.setItem u.storage (lit "theme") (toggleTheme window u).1.theme
        = Except.ok b' →
      (toggleTheme window u).2 = Except.ok () ∧ (toggleTheme window u).1.storage = b' := by
    intro u b' hset
    rw [toggleTheme_theme] at hset
    rw [toggleTheme_eq]
    simp only [hset]
    exact ⟨trivial, trivial⟩
  have hback : (toggleTheme window (toggleTheme window s).1).1.theme = s.theme := by
    rw [toggleTheme_theme, toggleTheme_theme]
    rcases htheme with h | h
    · simp [h, hdl]
    · simp [h, hdl]
  refine ⟨?_, ?_, hback, ?_, ?_⟩
  · intro h; rw [toggleTheme_theme, if_pos h]
  · intro h; rw [toggleTheme_theme, h, if_neg hdl]
  · intro b' hset hget
    obtain ⟨h1, h2⟩ := step s b' hset
    exact ⟨h1, h2, by rw [h2]; exact hget⟩
  · intro b' b'' hset1 hset2 hget
    obtain ⟨-, h2⟩ := step s b' hset1
    have hset2' : window.localStorage.setItem (toggleTheme window s).1.storage (lit "theme")
        (toggleTheme window (toggleTheme window s).1).1.theme = Except.ok b'' := by
      rw [h2, hback]; exact hset2
    obtain ⟨k1, k2⟩ := step (toggleTheme window s).1 b'' hset2'
    exact ⟨k1, by rw [k2]; exact hget⟩

/-- C8, amended, at the example of the specification on a storage that works: "light",
then "dark" (persisted "dark"), then "light" (persisted "light"). -/
theorem toggleTheme_persists_witness :
    (toggleTheme ⟨memStorage, memStorage⟩ ⟨lit "light", []⟩).1.theme = lit "dark" ∧
    memStorage.getItem (toggleTheme ⟨memStorage, memStorage⟩ ⟨lit "light", []⟩).1.storage
      (lit "theme") = Except.ok (some (lit "dark")) ∧
    (toggleTheme ⟨memStorage, memStorage⟩
      (toggleTheme ⟨memStorage, memStorage⟩ ⟨lit "light", []⟩).1).1.theme = lit "light" ∧
    memStorage.getItem (toggleTheme ⟨memStorage, memStorage⟩
      (toggleTheme ⟨memStorage, memStorage⟩ ⟨lit "light", []⟩).1).1.storage
      (lit "theme") = Except.ok (some (lit "light")) :=
  have h := toggleTheme_persists ⟨memStorage, memStorage⟩ ⟨lit "light", []⟩ (Or.inl rfl)
  ⟨h.1 rfl, rfl, h.2.2.1, (h.2.2.2.2 _ _ rfl rfl rfl).2⟩

end ReactLearning
